import Mathlib

/-!
Shallow embedding of the reaction-role engine of `src/reactionroles.py`.

The stored configuration is a dict of dicts
`guild_id -> message_id -> (emoji -> binding | "settings" -> settings)`.
We model one guild's slice as an association list keyed by message id; each
message holds an optional settings record (messages created by the bare
`/reaction add` command have none) and an association list from emoji keys to
entries.  An entry is either a bare integer role id (what `add_reaction_role`
stores) or a record `{role_id, mode}` (what the rest of the module reads).
Member role sets are `Finset Nat`; the live platform state (which roles and
messages still exist) is a `Platform` record.
-/

set_option autoImplicit false

namespace AshaBot

/-- Conflict-resolution mode of a binding (`normal`, `unique`, `exclusive`). -/
inductive Mode
  | normal
  | unique
  | exclusive
deriving DecidableEq, Repr

/-- A trigger binding record `{role_id, mode}` as stored in the config dicts. -/
structure Binding where
  role_id : Nat
  mode : Mode
deriving DecidableEq, Repr

/-- A category of a menu-style message: `{name, roles}` (we omit the purely
cosmetic `description`/`emoji` fields). -/
structure Category where
  name : String
  roles : List Binding
deriving DecidableEq, Repr

/-- Message style stored under `settings["style"]`. -/
inductive Style
  | reactions
  | buttons
  | menu
deriving DecidableEq, Repr

/-- The `settings` sub-dict of a message. -/
structure Settings where
  required_roles : Option (List Nat)
  max_roles : Option Nat
  style : Style
  categories : List (String × Category)
deriving DecidableEq, Repr

/-- Value stored under an emoji key: `add_reaction_role` stores the bare
integer `role.id`, while every reader expects a `{role_id, mode}` dict. -/
inductive EmojiEntry
  | bare (roleId : Nat)
  | record (b : Binding)
deriving DecidableEq, Repr

/-- One message's slice of the config dict: the `settings` entry (if present)
and the emoji-keyed binding entries, in insertion order. -/
structure MessageData where
  settings : Option Settings
  entries : List (String × EmojiEntry)
deriving DecidableEq, Repr

/-- One guild's slice of `self.reaction_roles`: message id to message data. -/
structure GuildConfig where
  messages : List (String × MessageData)
deriving DecidableEq, Repr

/-- Live platform state: which role ids and message ids still exist. -/
structure Platform where
  guildRoles : List Nat
  existingMessages : List String
deriving DecidableEq, Repr

/-! ## Association-list primitives (Python dict operations) -/

/-- Dict lookup on an association list (first matching key). -/
def alookup {β : Type} (k : String) : List (String × β) → Option β
  | [] => none
  | (k', v) :: rest => if k = k' then some v else alookup k rest

/-- Dict assignment `d[k] = v`: replaces in place, or appends at the end for a
fresh key (Python dicts preserve insertion order). -/
def aset {β : Type} (k : String) (v : β) : List (String × β) → List (String × β)
  | [] => [(k, v)]
  | (k', v') :: rest => if k = k' then (k, v) :: rest else (k', v') :: aset k v rest

theorem alookup_aset_self {β : Type} (k : String) (v : β) (l : List (String × β)) :
    alookup k (aset k v l) = some v := by
  induction l with
  | nil => simp [alookup, aset]
  | cons hd tl ih =>
    by_cases h : k = hd.1
    · simp [alookup, aset, h]
    · simp [alookup, aset, h, ih]

/-! ## Shared gate helpers -/

/-- `guild.get_role(r)` succeeds. -/
def roleExists (p : Platform) (r : Nat) : Bool :=
  p.guildRoles.contains r

/-- The `required_roles` gate of both activation paths: pass when the setting
is `None` or empty, or when the member holds one of the required roles that
still exists in the guild. -/
def requiredOk (p : Platform) (st : Settings) (mem : Finset Nat) : Bool :=
  match st.required_roles with
  | none => true
  | some rs => rs.isEmpty || rs.any (fun r => roleExists p r && decide (r ∈ mem))

/-- The `role_count` computed by both `max_roles` checks: the number of record
entries of this message whose role exists and is held by the member (bare
integer entries fail the `isinstance(..., dict)` test and are skipped; the
`settings` dict has no `role_id` key and is skipped). -/
def heldBoundCount (p : Platform) (entries : List (String × EmojiEntry)) (mem : Finset Nat) : Nat :=
  (entries.filter (fun kv =>
    match kv.2 with
    | .bare _ => false
    | .record b => roleExists p b.role_id && decide (b.role_id ∈ mem))).length

/-- The `max_roles` gate of `on_raw_reaction_add`: `if settings["max_roles"]:`
is falsy for `None` and `0`; the reaction path rejects whenever the count has
reached the cap, with no exemption for an already-held selected role. -/
def capBlocksRR (p : Platform) (st : Settings) (entries : List (String × EmojiEntry))
    (mem : Finset Nat) : Bool :=
  match st.max_roles with
  | none => false
  | some n => (n != 0) && decide (n ≤ heldBoundCount p entries mem)

/-! ## `on_raw_reaction_add` -/

/-- Result tag of a reaction/button activation. -/
inductive Outcome
  | notBinding
  | errored
  | rejectedRequired
  | rejectedCap
  | roleGone
  | applied
deriving DecidableEq, Repr

/-- The `unique`-mode removal loop of `on_raw_reaction_add`: walk this
message's entries in order; skip the selected emoji; for every other entry the
code evaluates `"role_id" in other_role_data`, which raises `TypeError` on a
bare integer entry (aborting the handler with the removals made so far kept);
otherwise remove the entry's role if it exists and the member holds it.
Returns the member's roles afterwards and whether the loop completed. -/
def uniqueRemoveRR (p : Platform) (selEmoji : String) :
    List (String × EmojiEntry) → Finset Nat → Finset Nat × Bool
  | [], mem => (mem, true)
  | (k, e) :: rest, mem =>
    if k = selEmoji then uniqueRemoveRR p selEmoji rest mem
    else
      match e with
      | .bare _ => (mem, false)
      | .record b =>
        uniqueRemoveRR p selEmoji rest
          (if roleExists p b.role_id && decide (b.role_id ∈ mem) then mem.erase b.role_id else mem)

/-- One message's slice of the `exclusive`-mode removal loop of
`on_raw_reaction_add`: the code evaluates `"role_id" in other_role_data`
before the skip test, so any bare entry aborts; the selected `(message,
emoji)` pair is skipped; every other existing, held role is removed. -/
def exclusiveRemoveMsgRR (p : Platform) (selMid selEmoji mid : String) :
    List (String × EmojiEntry) → Finset Nat → Finset Nat × Bool
  | [], mem => (mem, true)
  | (k, e) :: rest, mem =>
    match e with
    | .bare _ => (mem, false)
    | .record b =>
      if mid = selMid ∧ k = selEmoji then exclusiveRemoveMsgRR p selMid selEmoji mid rest mem
      else
        exclusiveRemoveMsgRR p selMid selEmoji mid rest
          (if roleExists p b.role_id && decide (b.role_id ∈ mem) then mem.erase b.role_id else mem)

/-- The full `exclusive`-mode removal of `on_raw_reaction_add`: walk every
message of the guild dict (menu-style messages contribute nothing, because
their only entry is the skipped `settings` key — their category bindings are
never visited). -/
def exclusiveRemoveRR (p : Platform) (selMid selEmoji : String) :
    List (String × MessageData) → Finset Nat → Finset Nat × Bool
  | [], mem => (mem, true)
  | (mid, md) :: rest, mem =>
    match exclusiveRemoveMsgRR p selMid selEmoji mid md.entries mem with
    | (mem', true) => exclusiveRemoveRR p selMid selEmoji rest mem'
    | (mem', false) => (mem', false)

/-- `ReactionRoles.on_raw_reaction_add`, as the function from the member's
current role set to the role set after the handler ran, plus an outcome tag.
The branch order mirrors the source: tracked-binding lookup, `settings`
lookup (`KeyError` for a message created by the bare add command), required
gate, cap gate, `role_data["role_id"]` access (`TypeError` on a bare entry),
role existence, mode handling, and finally `add_roles`. -/
def onRawReactionAdd (cfg : GuildConfig) (p : Platform) (mid emoji : String)
    (mem : Finset Nat) : Finset Nat × Outcome :=
  match alookup mid cfg.messages with
  | none => (mem, .notBinding)
  | some md =>
    match alookup emoji md.entries with
    | none => (mem, .notBinding)
    | some entry =>
      match md.settings with
      | none => (mem, .errored)
      | some st =>
        if !(requiredOk p st mem) then (mem, .rejectedRequired)
        else if capBlocksRR p st md.entries mem then (mem, .rejectedCap)
        else
          match entry with
          | .bare _ => (mem, .errored)
          | .record b =>
            if !(roleExists p b.role_id) then (mem, .roleGone)
            else
              match b.mode with
              | .normal => (insert b.role_id mem, .applied)
              | .unique =>
                match uniqueRemoveRR p emoji md.entries mem with
                | (m1, true) => (insert b.role_id m1, .applied)
                | (m1, false) => (m1, .errored)
              | .exclusive =>
                match exclusiveRemoveRR p mid emoji cfg.messages mem with
                | (m1, true) => (insert b.role_id m1, .applied)
                | (m1, false) => (m1, .errored)

/-- `ReactionRoles.on_raw_reaction_remove`: look the binding up, and remove
its role when it exists and the member holds it; no gate or mode logic runs. -/
def onRawReactionRemove (cfg : GuildConfig) (p : Platform) (mid emoji : String)
    (mem : Finset Nat) : Finset Nat × Outcome :=
  match alookup mid cfg.messages with
  | none => (mem, .notBinding)
  | some md =>
    match alookup emoji md.entries with
    | none => (mem, .notBinding)
    | some (.bare _) => (mem, .errored)
    | some (.record b) =>
      if roleExists p b.role_id && decide (b.role_id ∈ mem) then (mem.erase b.role_id, .applied)
      else (mem, .applied)

/-! ## `RoleButton.callback` -/

/-- Result tag of a button click (the toggle distinguishes removal from
addition, mirroring the two ephemeral replies). -/
inductive BOutcome
  | roleGone
  | errored
  | rejectedRequired
  | rejectedCap
  | removed
  | added
deriving DecidableEq, Repr

/-- The `role` variable after the `max_roles` counting loop of
`RoleButton.callback`.  The loop reuses the local `role` (initially the
button's own role), rebinding it to `guild.get_role(...)` of every record
entry it visits; after the loop, `role` is the `get_role` result of the last
record entry (possibly `None`), not the selected role. -/
def capLoopRoleVar (p : Platform) (entries : List (String × EmojiEntry))
    (init : Option Nat) : Option Nat :=
  entries.foldl
    (fun acc kv =>
      match kv.2 with
      | .bare _ => acc
      | .record b => if roleExists p b.role_id then some b.role_id else none)
    init

/-- `role not in member.roles` on the rebound `role` variable (`None` is not
in any role list, so `None` passes the check). -/
def capVarNotHeld (v : Option Nat) (mem : Finset Nat) : Bool :=
  match v with
  | none => true
  | some r => decide (r ∉ mem)

/-- The `unique`-mode block of `RoleButton.callback`: build `roles_to_remove`
from this message's entries (any bare entry raises `TypeError` at
`"role_id" in other_role_data` before any removal, since removals are batched
in one `remove_roles(*roles_to_remove)` call after the loop); entries whose
stored role id equals the button's are skipped. -/
def uniqueRemoveBtn (p : Platform) (selRid : Nat) (mem0 : Finset Nat) :
    List (String × EmojiEntry) → Finset Nat → Option (Finset Nat)
  | [], acc => some acc
  | (_, .bare _) :: _, _ => none
  | (_, .record b) :: rest, acc =>
    uniqueRemoveBtn p selRid mem0 rest
      (if (b.role_id != selRid) && roleExists p b.role_id && decide (b.role_id ∈ mem0) then
        acc.erase b.role_id
      else acc)

/-- One message's slice of the `exclusive`-mode block of
`RoleButton.callback`: the skip test compares `(other_msg_id, role_id)`
against the button's `(message_id, role_id)`; bare entries raise before any
removal happens (batched removal). -/
def exclusiveRemoveMsgBtn (p : Platform) (selMid : String) (selRid : Nat) (mid : String)
    (mem0 : Finset Nat) : List (String × EmojiEntry) → Finset Nat → Option (Finset Nat)
  | [], acc => some acc
  | (_, .bare _) :: _, _ => none
  | (_, .record b) :: rest, acc =>
    if mid = selMid ∧ b.role_id = selRid then
      exclusiveRemoveMsgBtn p selMid selRid mid mem0 rest acc
    else
      exclusiveRemoveMsgBtn p selMid selRid mid mem0 rest
        (if roleExists p b.role_id && decide (b.role_id ∈ mem0) then acc.erase b.role_id else acc)

/-- The full `exclusive`-mode block of `RoleButton.callback` over every
message of the guild dict. -/
def exclusiveRemoveBtn (p : Platform) (selMid : String) (selRid : Nat) (mem0 : Finset Nat) :
    List (String × MessageData) → Finset Nat → Option (Finset Nat)
  | [], acc => some acc
  | (mid, md) :: rest, acc =>
    match exclusiveRemoveMsgBtn p selMid selRid mid mem0 md.entries acc with
    | none => none
    | some acc' => exclusiveRemoveBtn p selMid selRid mem0 rest acc'

/-- `RoleButton.callback` for a button carrying `(message_id, role_id, mode)`.
Mirrors the source order: selected-role existence, message and settings
lookup, required gate, `max_roles` gate (this is where the `role` variable is
clobbered by the counting loop whenever `settings["max_roles"]` is truthy),
mode-conflict removal, and the final toggle — which tests and mutates the
possibly-clobbered `role` variable, inside its own `try` (a `None` there is a
caught error, after the mode removals have already been applied). -/
def roleButtonCallback (cfg : GuildConfig) (p : Platform) (selMid : String) (selRid : Nat)
    (mode : Mode) (mem : Finset Nat) : Finset Nat × BOutcome :=
  if !(roleExists p selRid) then (mem, .roleGone)
  else
    match alookup selMid cfg.messages with
    | none => (mem, .errored)
    | some md =>
      match md.settings with
      | none => (mem, .errored)
      | some st =>
        if !(requiredOk p st mem) then (mem, .rejectedRequired)
        else
          let capActive : Bool := match st.max_roles with
            | none => false
            | some n => n != 0
          let roleVar : Option Nat :=
            if capActive then capLoopRoleVar p md.entries (some selRid) else some selRid
          let capRejected : Bool := match st.max_roles with
            | none => false
            | some n =>
              (n != 0) && decide (n ≤ heldBoundCount p md.entries mem) && capVarNotHeld roleVar mem
          if capRejected then (mem, .rejectedCap)
          else
            let pre : Option (Finset Nat) :=
              match mode with
              | .normal => some mem
              | .unique => uniqueRemoveBtn p selRid mem md.entries mem
              | .exclusive => exclusiveRemoveBtn p selMid selRid mem cfg.messages mem
            match pre with
            | none => (mem, .errored)
            | some mem1 =>
              match roleVar with
              | none => (mem1, .errored)
              | some rv =>
                if rv ∈ mem1 then (mem1.erase rv, .removed)
                else (insert rv mem1, .added)

/-! ## `RoleSelectMenu.callback` -/

/-- Result tag of a menu interaction: `badLookup` models the `KeyError`
raised before any mutation when the message/settings/category lookups fail;
`nameErr` models the `NameError` raised inside the exclusive walk (mutations
made before it are kept). -/
inductive MenuOutcome
  | badLookup
  | ok
  | nameErr
deriving DecidableEq, Repr

/-- One category's slice of the exclusive walk in `RoleSelectMenu.callback`:
skip the `(message, category, role)` triple being added; remove every other
existing, held role of the category. -/
def menuExclusiveCat (p : Platform) (selMid selCid : String) (selRid : Nat)
    (omid ocid : String) : List Binding → Finset Nat → Finset Nat
  | [], mem => mem
  | b :: rest, mem =>
    if omid = selMid ∧ ocid = selCid ∧ b.role_id = selRid then
      menuExclusiveCat p selMid selCid selRid omid ocid rest mem
    else
      menuExclusiveCat p selMid selCid selRid omid ocid rest
        (if roleExists p b.role_id && decide (b.role_id ∈ mem) then mem.erase b.role_id else mem)

/-- All categories of one menu-style message in the exclusive walk. -/
def menuExclusiveMsg (p : Platform) (selMid selCid : String) (selRid : Nat) (omid : String) :
    List (String × Category) → Finset Nat → Finset Nat
  | [], mem => mem
  | (ocid, cat) :: rest, mem =>
    menuExclusiveMsg p selMid selCid selRid omid rest
      (menuExclusiveCat p selMid selCid selRid omid ocid cat.roles mem)

/-- The exclusive walk of `RoleSelectMenu.callback` over the guild dict.  For
a message whose settings say `style == "menu"` its categories are walked; for
a message that has a `settings` entry but is not menu-style, the code hits
`elif "settings" in msg_data and emoji != "settings":` where `emoji` is an
unbound name, raising `NameError` and aborting the whole callback (removals
made so far stand); a message with no `settings` entry short-circuits the
`elif` and is skipped. -/
def menuExclusiveWalk (p : Platform) (selMid selCid : String) (selRid : Nat) :
    List (String × MessageData) → Finset Nat → Finset Nat × Bool
  | [], mem => (mem, true)
  | (omid, omd) :: rest, mem =>
    match omd.settings with
    | none => menuExclusiveWalk p selMid selCid selRid rest mem
    | some st =>
      if st.style = .menu then
        menuExclusiveWalk p selMid selCid selRid rest
          (menuExclusiveMsg p selMid selCid selRid omid st.categories mem)
      else (mem, false)

/-- The per-role loop of `RoleSelectMenu.callback`: a nonexistent role is
skipped; a selected, unheld role is added (after the exclusive walk when its
mode is exclusive — a `NameError` there aborts before the add); a deselected
held role is removed; mode plays no part in deselection. -/
def menuProcessRoles (cfg : GuildConfig) (p : Platform) (selMid selCid : String)
    (selected : List Nat) : List Binding → Finset Nat → Finset Nat × Bool
  | [], mem => (mem, true)
  | b :: rest, mem =>
    if !(roleExists p b.role_id) then menuProcessRoles cfg p selMid selCid selected rest mem
    else if b.role_id ∈ selected then
      if b.role_id ∉ mem then
        match b.mode with
        | .exclusive =>
          match menuExclusiveWalk p selMid selCid b.role_id cfg.messages mem with
          | (mem', true) => menuProcessRoles cfg p selMid selCid selected rest (insert b.role_id mem')
          | (mem', false) => (mem', false)
        | _ => menuProcessRoles cfg p selMid selCid selected rest (insert b.role_id mem)
      else menuProcessRoles cfg p selMid selCid selected rest mem
    else if b.role_id ∈ mem then menuProcessRoles cfg p selMid selCid selected rest (mem.erase b.role_id)
    else menuProcessRoles cfg p selMid selCid selected rest mem

/-- `RoleSelectMenu.callback` for the menu registered on `(message_id,
category_id)`, given the selected values (`self.values`, a list of role ids).
The callback walks the category's `role_id -> role_data` map in order and
processes additions and removals role by role. -/
def roleSelectMenuCallback (cfg : GuildConfig) (p : Platform) (selMid selCid : String)
    (selected : List Nat) (mem : Finset Nat) : Finset Nat × MenuOutcome :=
  match alookup selMid cfg.messages with
  | none => (mem, .badLookup)
  | some md =>
    match md.settings with
    | none => (mem, .badLookup)
    | some st =>
      match alookup selCid st.categories with
      | none => (mem, .badLookup)
      | some cat =>
        match menuProcessRoles cfg p selMid selCid selected cat.roles mem with
        | (mem', true) => (mem', .ok)
        | (mem', false) => (mem', .nameErr)

/-! ## `add_reaction_role` (the bare `/reaction add` command) -/

/-- `ReactionRoles.add_reaction_role`: ensure the message key exists (a fresh
message gets an empty dict, with no `settings`), then store the bare integer
`role.id` under the emoji key. -/
def addReactionRole (cfg : GuildConfig) (mid emoji : String) (roleId : Nat) : GuildConfig :=
  let md : MessageData := match alookup mid cfg.messages with
    | none => ⟨none, []⟩
    | some md => md
  ⟨aset mid ⟨md.settings, aset emoji (.bare roleId) md.entries⟩ cfg.messages⟩

/-! ## `reaction_verify` -/

/-- Whether `reaction_verify` keeps an emoji entry: bare integers raise
`TypeError` at `role_data["role_id"]`, which is caught and logged, leaving
the entry in place; record entries are deleted when their role no longer
exists. -/
def verifyKeeps (p : Platform) : EmojiEntry → Bool
  | .bare _ => true
  | .record b => roleExists p b.role_id

/-- The inner loop of `reaction_verify` over one found message's entries:
returns the surviving entries and the number of deleted (fixed) ones. -/
def verifyEntries (p : Platform) : List (String × EmojiEntry) → List (String × EmojiEntry) × Nat
  | [] => ([], 0)
  | (k, e) :: rest =>
    match verifyEntries p rest with
    | (rest', n) =>
      if verifyKeeps p e then ((k, e) :: rest', n) else (rest', n + 1)

/-- The message loop of `reaction_verify`: a message whose platform message is
gone is only counted (`continue`), its data untouched; a found message has its
orphan record entries deleted in place. -/
def verifyMessages (p : Platform) :
    List (String × MessageData) → List (String × MessageData) × Nat
  | [] => ([], 0)
  | (mid, md) :: rest =>
    match verifyMessages p rest with
    | (rest', n) =>
      if mid ∈ p.existingMessages then
        match verifyEntries p md.entries with
        | (ents, k) => ((mid, ⟨md.settings, ents⟩) :: rest', n + k)
      else ((mid, md) :: rest', n)

/-- `ReactionRoles.reaction_verify` on one guild: the resulting stored
configuration and the `issues_fixed` count (when it is positive the command
calls `save_data`, persisting the mutation). -/
def verifyGuild (cfg : GuildConfig) (p : Platform) : GuildConfig × Nat :=
  match verifyMessages p cfg.messages with
  | (msgs, n) => (⟨msgs⟩, n)

/-! ## `reaction_cleanup` -/

/-- Whether `reaction_cleanup` keeps an emoji entry: bare integers raise
`TypeError` at `...[emoji]["role_id"]`, and the `except` branch deletes the
entry; record entries are kept exactly when their role still exists. -/
def cleanupKeeps (p : Platform) : EmojiEntry → Bool
  | .bare _ => false
  | .record b => roleExists p b.role_id

/-- The role-cleanup loop of `reaction_cleanup` over one found message. -/
def cleanupEntries (p : Platform) : List (String × EmojiEntry) → List (String × EmojiEntry)
  | [] => []
  | (k, e) :: rest =>
    if cleanupKeeps p e then (k, e) :: cleanupEntries p rest else cleanupEntries p rest

/-- The first pass of `reaction_cleanup`: a message whose platform message no
longer exists is deleted outright (`del self.reaction_roles[guild_id]
[message_id]`); a found message keeps only its valid record entries. -/
def cleanupPass1 (p : Platform) : List (String × MessageData) → List (String × MessageData)
  | [] => []
  | (mid, md) :: rest =>
    if mid ∈ p.existingMessages then
      (mid, ⟨md.settings, cleanupEntries p md.entries⟩) :: cleanupPass1 p rest
    else cleanupPass1 p rest

/-- The second pass of `reaction_cleanup`: delete every message dict of length
one whose single key is `settings` — which is every settings-only message,
including every menu-style message and every freshly created one. -/
def cleanupPass2 : List (String × MessageData) → List (String × MessageData)
  | [] => []
  | (mid, md) :: rest =>
    if md.entries.isEmpty && md.settings.isSome then cleanupPass2 rest
    else (mid, md) :: cleanupPass2 rest

/-- `ReactionRoles.reaction_cleanup` on one guild.  The command returns
immediately when the guild has no data (both a missing guild key and an empty
dict hit the early `return`); a guild left empty has its key deleted, which
the next run sees as the same early return. -/
def cleanupGuild (cfg : GuildConfig) (p : Platform) : GuildConfig :=
  if cfg.messages.isEmpty then cfg
  else ⟨cleanupPass2 (cleanupPass1 p cfg.messages)⟩

/-! ## `register_persistent_views` (Dispatch Registrar) -/

/-- A live component registered with the interaction router, with its
deterministic `custom_id` and the handler data the component closes over. -/
inductive Component
  | button (custom_id : String) (guild_id message_id : String) (role_id : Nat) (mode : Mode)
  | selectMenu (custom_id : String) (guild_id message_id category_id : String)
      (roles : List Binding)
deriving DecidableEq, Repr

/-- `RoleButton.__init__` custom id: `f"role_{role_id}_{message_id}"`. -/
def buttonCustomId (roleId : Nat) (mid : String) : String :=
  "role_" ++ toString roleId ++ "_" ++ mid

/-- `RoleSelectMenu.__init__` custom id: `f"menu_{message_id}_{category_id}"`. -/
def menuCustomId (mid cid : String) : String :=
  "menu_" ++ mid ++ "_" ++ cid

/-- The style of a stored message as the registrar reads it:
`message_data.get("settings", {}).get("style", "reactions")`. -/
def styleOf (md : MessageData) : Style :=
  match md.settings with
  | none => .reactions
  | some st => st.style

/-- The button-building loop of `register_persistent_views` for one
buttons-style message.  A bare entry raises `TypeError` at
`role_data["role_id"]`; the single `try` around the whole registration loop
then aborts registration for every remaining message, so the result is an
`Option`. -/
def buttonComponents (gid mid : String) : List (String × EmojiEntry) → Option (List Component)
  | [] => some []
  | (_, .bare _) :: _ => none
  | (_, .record b) :: rest =>
    match buttonComponents gid mid rest with
    | none => none
    | some l => some (.button (buttonCustomId b.role_id mid) gid mid b.role_id b.mode :: l)

/-- The menu-building loop of `register_persistent_views` for one menu-style
message: one select menu per category with a nonempty role list. -/
def menuComponents (gid mid : String) (cats : List (String × Category)) : List Component :=
  cats.filterMap fun c =>
    if c.2.roles.isEmpty then none
    else some (.selectMenu (menuCustomId mid c.1) gid mid c.1 c.2.roles)

/-- The message loop of `ReactionRoles.register_persistent_views`: skip
reaction-style messages; build and register a view (keyed by the message id)
whenever it has children.  Everything runs inside one `try`, so a `TypeError`
on any bare entry of a buttons-style message makes the whole walk abort. -/
def registerViewsWalk (gid : String) :
    List (String × MessageData) → Option (List (String × List Component))
  | [] => some []
  | (mid, md) :: rest =>
    match styleOf md with
    | .reactions => registerViewsWalk gid rest
    | .buttons =>
      match buttonComponents gid mid md.entries with
      | none => none
      | some comps =>
        match registerViewsWalk gid rest with
        | none => none
        | some views => some (if comps.isEmpty then views else (mid, comps) :: views)
    | .menu =>
      let comps := menuComponents gid mid
        (match md.settings with
         | none => []
         | some st => st.categories)
      match registerViewsWalk gid rest with
      | none => none
      | some views => some (if comps.isEmpty then views else (mid, comps) :: views)

/-- `ReactionRoles.register_persistent_views` on one guild's slice of the
persisted configuration: the registrar reads nothing but `self.reaction_roles`
(loaded from disk), so this is a function of the persisted configuration
alone. -/
def registerPersistentViews (gid : String) (cfg : GuildConfig) :
    Option (List (String × List Component)) :=
  registerViewsWalk gid cfg.messages

/-- The registrar's output described directly as a pure per-message map over
the persisted configuration: for each buttons-style message one button per
record entry with custom id `role_{role_id}_{message_id}`, for each menu-style
message one select menu per nonempty category with custom id
`menu_{message_id}_{category_id}`; views with no components are dropped. -/
def deriveComponentIdentities (gid : String) (cfg : GuildConfig) :
    List (String × List Component) :=
  cfg.messages.filterMap fun mm =>
    let comps : List Component :=
      match styleOf mm.2 with
      | .reactions => []
      | .buttons =>
        mm.2.entries.filterMap fun kv =>
          match kv.2 with
          | .bare _ => none
          | .record b => some (.button (buttonCustomId b.role_id mm.1) gid mm.1 b.role_id b.mode)
      | .menu =>
        menuComponents gid mm.1
          (match mm.2.settings with
           | none => []
           | some st => st.categories)
    if comps.isEmpty then none else some (mm.1, comps)

/-! ## Spec-side notions of bound roles -/

/-- Modelled from the spec's data model: the role ids bound by the triggers of
one RoleMessage — its top-level trigger entries (a bare entry still names a
role id) together with the bindings of its menu categories. -/
def msgBoundRoleIds (md : MessageData) : List Nat :=
  md.entries.map (fun kv =>
    match kv.2 with
    | .bare r => r
    | .record b => b.role_id)
  ++ (match md.settings with
      | none => []
      | some st => st.categories.flatMap fun c => c.2.roles.map (·.role_id))

/-- Modelled from the spec's data model: every role id bound by any trigger of
any RoleMessage of the guild. -/
def guildBoundRoleIds (cfg : GuildConfig) : List Nat :=
  cfg.messages.flatMap fun mm => msgBoundRoleIds mm.2

/-- The role ids bound inside menu categories of the guild's stored
configuration (used to observe what `cleanup` leaves unchecked). -/
def guildCategoryRoleIds (cfg : GuildConfig) : List Nat :=
  cfg.messages.flatMap fun mm =>
    match mm.2.settings with
    | none => []
    | some st => st.categories.flatMap fun c => c.2.roles.map (·.role_id)

/-- The role ids of a message's top-level record entries, as a Finset (the
unique/exclusive scope the handlers actually walk). -/
def msgRecordRoleFinset (md : MessageData) : Finset Nat :=
  (md.entries.filterMap fun kv =>
    match kv.2 with
    | .bare _ => none
    | .record b => some b.role_id).toFinset

/-! ## Concrete configurations used as witnesses and counterexamples -/

/-- Default settings of a `/reaction create` message (no gates configured). -/
def stPlain (sty : Style) : Settings := ⟨none, none, sty, []⟩

/-- A reaction-style message with a single exclusive binding `e ↦ role 10`. -/
def mdExclusiveFlat : MessageData :=
  ⟨some (stPlain .reactions), [("e", .record ⟨10, .exclusive⟩)]⟩

/-- A menu-style message whose category `c` binds role 20. -/
def mdMenuFaction : MessageData :=
  ⟨some ⟨none, none, .menu, [("c", ⟨"Faction", [⟨20, .normal⟩]⟩)]⟩, []⟩

/-- A guild with one flat exclusive binding and one menu-bound role. -/
def cfgExclusiveMenu : GuildConfig := ⟨[("m1", mdExclusiveFlat), ("m2", mdMenuFaction)]⟩

/-- Platform state for `cfgExclusiveMenu`: both roles and messages exist. -/
def pExclusiveMenu : Platform := ⟨[10, 20], ["m1", "m2"]⟩

/-- A buttons-style message with `max_roles = 2` and two unique bindings. -/
def mdUniqueCap : MessageData :=
  ⟨some ⟨none, some 2, .buttons, []⟩,
   [("e1", .record ⟨1, .unique⟩), ("e2", .record ⟨2, .unique⟩)]⟩

/-- A guild holding only `mdUniqueCap` under message id `m`. -/
def cfgUniqueCap : GuildConfig := ⟨[("m", mdUniqueCap)]⟩

/-- Platform state for `cfgUniqueCap`. -/
def pUniqueCap : Platform := ⟨[1, 2], ["m"]⟩

/-- A reaction-style message with `max_roles = 1` and three normal bindings. -/
def mdCapThree : MessageData :=
  ⟨some ⟨none, some 1, .reactions, []⟩,
   [("e1", .record ⟨1, .normal⟩), ("e2", .record ⟨2, .normal⟩), ("e3", .record ⟨3, .normal⟩)]⟩

/-- A guild holding only `mdCapThree` under message id `m`. -/
def cfgCapThree : GuildConfig := ⟨[("m", mdCapThree)]⟩

/-- Platform state for `cfgCapThree`. -/
def pCapThree : Platform := ⟨[1, 2, 3], ["m"]⟩

/-- A message with a single normal binding `e ↦ role 1` and no gates. -/
def mdSingleNormal : MessageData :=
  ⟨some (stPlain .reactions), [("e", .record ⟨1, .normal⟩)]⟩

/-- A guild holding only `mdSingleNormal` under message id `m`. -/
def cfgSingleNormal : GuildConfig := ⟨[("m", mdSingleNormal)]⟩

/-- Platform state for `cfgSingleNormal`. -/
def pSingleNormal : Platform := ⟨[1], ["m"]⟩

/-- A guild whose only message binds role 5, with role 5 deleted from the
guild but the message still present. -/
def cfgOrphanRole : GuildConfig :=
  ⟨[("m", ⟨some (stPlain .reactions), [("e", .record ⟨5, .normal⟩)]⟩)]⟩

/-- Platform state for `cfgOrphanRole`: message exists, role 5 does not. -/
def pOrphanRole : Platform := ⟨[], ["m"]⟩

/-- Platform state with role 5 alive but message `m` deleted. -/
def pMissingMsg : Platform := ⟨[5], []⟩

/-- A message that still has valid top-level record entries and also a menu
category binding role 99 (a role that no longer exists). -/
def cfgMixedMenu : GuildConfig :=
  ⟨[("m", ⟨some ⟨none, none, .menu, [("c", ⟨"C", [⟨99, .normal⟩]⟩)]⟩,
      [("e", .record ⟨1, .normal⟩)]⟩)]⟩

/-- Platform state for `cfgMixedMenu`: role 1 and message `m` exist, role 99
does not. -/
def pMixedMenu : Platform := ⟨[1], ["m"]⟩

/-- A guild with a buttons-style, a menu-style and a reactions-style message,
used to exercise the registrar. -/
def cfgRegistrar : GuildConfig :=
  ⟨[("mb", ⟨some ⟨none, none, .buttons, []⟩,
      [("e1", .record ⟨1, .normal⟩), ("e2", .record ⟨2, .unique⟩)]⟩),
    ("mm", ⟨some ⟨none, none, .menu, [("c", ⟨"C", [⟨7, .unique⟩]⟩), ("d", ⟨"D", []⟩)]⟩, []⟩),
    ("mr", ⟨some (stPlain .reactions), [("e", .record ⟨9, .normal⟩)]⟩)]⟩

/-- A menu-style guild whose category `c` holds the single binding
`role 7 (unique)`. -/
def cfgMenuSolo : GuildConfig :=
  ⟨[("m", ⟨some ⟨none, none, .menu, [("c", ⟨"C", [⟨7, .unique⟩]⟩)]⟩, []⟩)]⟩

/-- Platform state for `cfgMenuSolo`. -/
def pMenuSolo : Platform := ⟨[7], ["m"]⟩

/-! ## Claim C1 -/

/-- C1 (code bug): the exclusive invariant fails on the reaction path.  The
member holds role 20, bound by a menu-style message's category; selecting the
exclusive binding `e ↦ role 10` on message `m1` is accepted, yet the handler's
guild walk visits only top-level emoji entries, so role 20 survives: the
member ends up holding `{10, 20}`, and their set of guild-bound roles is
`{10, 20}`, not the singleton `{10}` the claim requires. -/
theorem exclusive_select_keeps_menu_bound_role :
    onRawReactionAdd cfgExclusiveMenu pExclusiveMenu "m1" "e" {20} = ({10, 20}, .applied) ∧
    alookup "e" mdExclusiveFlat.entries = some (.record ⟨10, .exclusive⟩) ∧
    20 ∈ guildBoundRoleIds cfgExclusiveMenu ∧
    (({10, 20} : Finset Nat) ∩ (guildBoundRoleIds cfgExclusiveMenu).toFinset) ≠ {10} := by
  refine ⟨by decide, by decide, by decide, by decide⟩

/-! ## Claim C4 -/

/-- C4 (code bug): the unique invariant fails on the button path whenever
`max_roles` is set.  The member holds role 1 and clicks role 1's unique
button on a message whose `max_roles = 2`; the cap-counting loop rebinds the
local `role` variable to the last counted role (role 2), so the final toggle
adds role 2 instead of removing role 1: the accepted activation leaves the
member holding both unique-scope roles. -/
theorem unique_button_cap_loop_toggles_wrong_role :
    roleButtonCallback cfgUniqueCap pUniqueCap "m" 1 .unique {1} = ({1, 2}, .added) ∧
    msgRecordRoleFinset mdUniqueCap = {1, 2} ∧
    (({1, 2} : Finset Nat) ∩ msgRecordRoleFinset mdUniqueCap).card = 2 := by
  refine ⟨by decide, by decide, by decide⟩

/-! ## Claim C2 -/

/-- C2 counterexample: on the reaction path the cap check has no exemption for
an already-held selected role.  The member holds exactly role 1, the role
bound by the selected trigger `e1`, and `max_roles = 1`; the claim says the
cap check must not reject this activation, but the handler rejects it with
the cap reason and leaves the roles unchanged. -/
theorem cap_reaction_rejects_already_held :
    onRawReactionAdd cfgCapThree pCapThree "m" "e1" {1} = ({1}, .rejectedCap) ∧
    alookup "e1" mdCapThree.entries = some (.record ⟨1, .normal⟩) ∧
    mdCapThree.settings = some ⟨none, some 1, .reactions, []⟩ := by
  refine ⟨by decide, by decide, by decide⟩

/-! ## Claim C3 -/

/-- C3 counterexample: the reaction select path does not toggle.  The member
already holds role 1, the role bound by the selected trigger; the claim says
the accepted activation must remove it, but `on_raw_reaction_add` only ever
calls `add_roles`, so the activation is accepted and role 1 is still held. -/
theorem reaction_select_does_not_toggle :
    onRawReactionAdd cfgSingleNormal pSingleNormal "m" "e" {1} = ({1}, .applied) ∧
    alookup "e" mdSingleNormal.entries = some (.record ⟨1, .normal⟩) := by
  refine ⟨by decide, by decide⟩

/-! ## Claim C6 -/

/-- C6 counterexample: `verify` is not read-only.  On a guild whose single
message still exists but binds the deleted role 5, `reaction_verify` deletes
the binding from the stored configuration (and reports one fixed issue, so it
also calls `save_data`). -/
theorem verify_mutates_config :
    (verifyGuild cfgOrphanRole pOrphanRole).1 ≠ cfgOrphanRole ∧
    (verifyGuild cfgOrphanRole pOrphanRole).2 = 1 := by
  refine ⟨by decide, by decide⟩

/-! ## Claim C7 -/

/-- C7 counterexample: `cleanup` discards the whole stored configuration of a
RoleMessage whose platform message is gone.  Message `m` (with a valid
binding for the still-existing role 5) is absent from the platform; after
cleanup there is no entry for `m` at all, so nothing is retained for
`rebuild`/`clone`. -/
theorem cleanup_discards_missing_message_config :
    alookup "m" (cleanupGuild cfgOrphanRole pMissingMsg).messages = none ∧
    alookup "m" cfgOrphanRole.messages ≠ none := by
  refine ⟨by decide, by decide⟩

/-! ## Claim C8 -/

/-- C8 counterexample: after `cleanup`, not every binding's role exists.  The
message `m` keeps its valid top-level entry, so it survives both cleanup
passes, but its menu category still binds role 99, which no longer exists in
the guild: cleanup never inspects category bindings. -/
theorem cleanup_misses_category_binding :
    99 ∈ guildCategoryRoleIds (cleanupGuild cfgMixedMenu pMixedMenu) ∧
    99 ∈ guildBoundRoleIds (cleanupGuild cfgMixedMenu pMixedMenu) ∧
    roleExists pMixedMenu 99 = false := by
  refine ⟨by decide, by decide, by decide⟩

/-! ## Claim C5 -/

/-- C5: a deselect activation runs no mode-conflict logic and removes exactly
the binding's role when the member holds it, touching nothing otherwise.
Part one: `on_raw_reaction_remove` on any trigger bound to a record `b`
(whatever its mode) removes exactly `b.role_id` when held, and mutates
nothing when not held.  Part two: the menu path with the option unchecked
(the binding's role not among the selected values) does the same, again for
every mode.  Both parts assume the member only holds roles that exist in the
guild. -/
theorem deselect_removes_exactly_held_role :
    (∀ (cfg : GuildConfig) (p : Platform) (mid e : String) (mem : Finset Nat)
        (md : MessageData) (b : Binding),
      alookup mid cfg.messages = some md →
      alookup e md.entries = some (.record b) →
      (∀ r ∈ mem, roleExists p r = true) →
      onRawReactionRemove cfg p mid e mem =
        (if b.role_id ∈ mem then mem.erase b.role_id else mem, .applied)) ∧
    (∀ (cfg : GuildConfig) (p : Platform) (mid cid : String) (mem : Finset Nat)
        (md : MessageData) (st : Settings) (cat : Category) (b : Binding),
      alookup mid cfg.messages = some md →
      md.settings = some st →
      alookup cid st.categories = some cat →
      cat.roles = [b] →
      (∀ r ∈ mem, roleExists p r = true) →
      roleSelectMenuCallback cfg p mid cid [] mem =
        (if b.role_id ∈ mem then mem.erase b.role_id else mem, .ok)) := by
  constructor
  · intro cfg p mid e mem md b h1 h2 hsub
    by_cases hm : b.role_id ∈ mem
    · have hex : roleExists p b.role_id = true := hsub _ hm
      simp [onRawReactionRemove, h1, h2, hex, hm]
    · simp [onRawReactionRemove, h1, h2, hm]
  · intro cfg p mid cid mem md st cat b h1 h2 h3 h4 hsub
    by_cases hm : b.role_id ∈ mem
    · have hex : roleExists p b.role_id = true := hsub _ hm
      simp [roleSelectMenuCallback, h1, h2, h3, h4, menuProcessRoles, hex, hm]
    · by_cases hex : roleExists p b.role_id = true
      · simp [roleSelectMenuCallback, h1, h2, h3, h4, menuProcessRoles, hex, hm]
      · simp [roleSelectMenuCallback, h1, h2, h3, h4, menuProcessRoles, hex, hm]

/-- Witness for C5 at a concrete input: a held role 7 is removed by both
deselect paths, with the hypotheses discharged on `cfgMenuSolo` and
`cfgSingleNormal`. -/
theorem deselect_removes_exactly_held_role_witness :
    onRawReactionRemove cfgSingleNormal pSingleNormal "m" "e" {1} = (∅, .applied) ∧
    roleSelectMenuCallback cfgMenuSolo pMenuSolo "m" "c" [] {7} = (∅, .ok) := by
  constructor
  · have h := deselect_removes_exactly_held_role.1 cfgSingleNormal pSingleNormal "m" "e"
      {1} mdSingleNormal ⟨1, .normal⟩ (by decide) (by decide) (by decide)
    simpa using h
  · have h := deselect_removes_exactly_held_role.2 cfgMenuSolo pMenuSolo "m" "c" {7}
      ⟨some ⟨none, none, .menu, [("c", ⟨"C", [⟨7, .unique⟩]⟩)]⟩, []⟩
      ⟨none, none, .menu, [("c", ⟨"C", [⟨7, .unique⟩]⟩)]⟩ ⟨"C", [⟨7, .unique⟩]⟩ ⟨7, .unique⟩
      (by decide) (by decide) (by decide) (by decide) (by decide)
    simpa using h

/-! ## Claim C10 -/

/-- Lookup of a trigger entry through the guild dict. -/
def lookupEntry (cfg : GuildConfig) (mid e : String) : Option EmojiEntry :=
  match alookup mid cfg.messages with
  | none => none
  | some md => alookup e md.entries

/-- C10: the `add` command stores the bare integer role id, and a reaction-add
activation of such a binding never mutates the member's roles: either the
`settings` lookup raises `KeyError` or the `role_data["role_id"]` access
raises `TypeError`, both caught by the handler's `except`, and when the gates
let the activation through the outcome is precisely the caught error. -/
theorem add_command_bare_and_reaction_add_noop :
    ∀ (cfg : GuildConfig) (p : Platform) (mid e : String) (rid : Nat) (mem : Finset Nat),
      lookupEntry (addReactionRole cfg mid e rid) mid e = some (.bare rid) ∧
      (onRawReactionAdd (addReactionRole cfg mid e rid) p mid e mem).1 = mem ∧
      (∀ (md : MessageData) (st : Settings),
        alookup mid (addReactionRole cfg mid e rid).messages = some md →
        md.settings = some st →
        requiredOk p st mem = true →
        capBlocksRR p st md.entries mem = false →
        (onRawReactionAdd (addReactionRole cfg mid e rid) p mid e mem).2 = .errored) := by
  intro cfg p mid e rid mem
  simp only [addReactionRole]
  generalize (match alookup mid cfg.messages with
      | none => (⟨none, []⟩ : MessageData)
      | some md => md) = md0
  obtain ⟨s0, l0⟩ := md0
  have h1 : alookup mid
      (aset mid (⟨s0, aset e (.bare rid) l0⟩ : MessageData) cfg.messages) =
      some (⟨s0, aset e (.bare rid) l0⟩ : MessageData) := alookup_aset_self mid _ cfg.messages
  have h2 : alookup e (aset e (EmojiEntry.bare rid) l0) = some (.bare rid) :=
    alookup_aset_self e _ l0
  refine ⟨?_, ?_, ?_⟩
  · simp only [lookupEntry, h1, h2]
  · simp only [onRawReactionAdd, h1, h2]
    cases hs : s0 with
    | none => rfl
    | some st =>
      by_cases hreq : requiredOk p st mem
      · by_cases hcap : capBlocksRR p st (aset e (.bare rid) l0) mem
        · simp [hreq, hcap]
        · simp [hreq, hcap]
      · simp [hreq]
  · intro md st hmd hst hreq hcap
    rw [h1] at hmd
    injection hmd with hmd
    subst hmd
    have hst' : s0 = some st := hst
    subst hst'
    simp only [onRawReactionAdd, h1, h2]
    simp [hreq, hcap]

/-- Witness for C10 at a concrete input: adding `e ↦ 42` on an existing
buttons-free guild and then reacting leaves the roles `{3}` unchanged with an
`errored` outcome. -/
theorem add_command_bare_and_reaction_add_noop_witness :
    lookupEntry (addReactionRole ⟨[]⟩ "m" "e" 42) "m" "e" = some (.bare 42) ∧
    (onRawReactionAdd (addReactionRole ⟨[]⟩ "m" "e" 42) ⟨[42], ["m"]⟩ "m" "e" {3}).1 = {3} := by
  have h := add_command_bare_and_reaction_add_noop ⟨[]⟩ ⟨[42], ["m"]⟩ "m" "e" 42 {3}
  exact ⟨h.1, h.2.1⟩

/-- C3 amended: toggle semantics as the code implements them.  On the button
path with no `max_roles` cap and no required-role gate, a click toggles the
selected role (held: removed, not held: added), and clicking twice restores
the pre-activation role set.  On the reaction path, an accepted normal-mode
select always adds the binding's role — it never removes, so the reaction
path does not toggle (removal happens only through the reaction-remove
event). -/
theorem select_toggle_semantics :
    (∀ (cfg : GuildConfig) (p : Platform) (mid : String) (rid : Nat) (mem : Finset Nat)
        (md : MessageData) (st : Settings),
      roleExists p rid = true →
      alookup mid cfg.messages = some md →
      md.settings = some st →
      st.required_roles = none →
      st.max_roles = none →
      roleButtonCallback cfg p mid rid .normal mem =
        (if rid ∈ mem then (mem.erase rid, BOutcome.removed)
         else (insert rid mem, BOutcome.added))) ∧
    (∀ (cfg : GuildConfig) (p : Platform) (mid : String) (rid : Nat) (mem : Finset Nat)
        (md : MessageData) (st : Settings),
      roleExists p rid = true →
      alookup mid cfg.messages = some md →
      md.settings = some st →
      st.required_roles = none →
      st.max_roles = none →
      (roleButtonCallback cfg p mid rid .normal
        ((roleButtonCallback cfg p mid rid .normal mem).1)).1 = mem) ∧
    (∀ (cfg : GuildConfig) (p : Platform) (mid e : String) (mem : Finset Nat)
        (md : MessageData) (st : Settings) (b : Binding),
      alookup mid cfg.messages = some md →
      alookup e md.entries = some (.record b) →
      md.settings = some st →
      b.mode = .normal →
      requiredOk p st mem = true →
      capBlocksRR p st md.entries mem = false →
      roleExists p b.role_id = true →
      onRawReactionAdd cfg p mid e mem = (insert b.role_id mem, .applied)) := by
  have part1 : ∀ (cfg : GuildConfig) (p : Platform) (mid : String) (rid : Nat)
      (mem : Finset Nat) (md : MessageData) (st : Settings),
      roleExists p rid = true →
      alookup mid cfg.messages = some md →
      md.settings = some st →
      st.required_roles = none →
      st.max_roles = none →
      roleButtonCallback cfg p mid rid .normal mem =
        (if rid ∈ mem then (mem.erase rid, BOutcome.removed)
         else (insert rid mem, BOutcome.added)) := by
    intro cfg p mid rid mem md st hex h1 h2 hreqn hmax
    have hreq : requiredOk p st mem = true := by simp [requiredOk, hreqn]
    simp only [roleButtonCallback, hex, h1, h2, hreq, hmax]
    by_cases hm : rid ∈ mem <;> simp [hm]
  refine ⟨part1, ?_, ?_⟩
  · intro cfg p mid rid mem md st hex h1 h2 hreqn hmax
    rw [part1 cfg p mid rid mem md st hex h1 h2 hreqn hmax]
    by_cases hm : rid ∈ mem
    · simp only [hm, if_true]
      rw [part1 cfg p mid rid (mem.erase rid) md st hex h1 h2 hreqn hmax]
      simp [Finset.insert_erase hm]
    · simp only [hm, if_false]
      rw [part1 cfg p mid rid (insert rid mem) md st hex h1 h2 hreqn hmax]
      simp [Finset.erase_insert hm]
  · intro cfg p mid e mem md st b h1 h2 h3 hmode hreq hcap hex
    simp only [onRawReactionAdd, h1, h2, h3, hmode]
    simp [hreq, hcap, hex]

/-- Witness for C3's amended theorem at concrete inputs: a double button
click on role 1 restores `{}`, and a reaction select on held role 1 keeps it
held with an `applied` outcome. -/
theorem select_toggle_semantics_witness :
    roleButtonCallback cfgSingleNormal pSingleNormal "m" 1 .normal {} =
      (insert 1 {}, BOutcome.added) ∧
    (roleButtonCallback cfgSingleNormal pSingleNormal "m" 1 .normal
      ((roleButtonCallback cfgSingleNormal pSingleNormal "m" 1 .normal {}).1)).1 =
      ({} : Finset Nat) ∧
    onRawReactionAdd cfgSingleNormal pSingleNormal "m" "e" {1} = (insert 1 {1}, .applied) := by
  refine ⟨?_, ?_, ?_⟩
  · have h := select_toggle_semantics.1 cfgSingleNormal pSingleNormal "m" 1 {}
      mdSingleNormal (stPlain .reactions) (by decide) (by decide) (by decide) (by decide)
      (by decide)
    simpa using h
  · exact select_toggle_semantics.2.1 cfgSingleNormal pSingleNormal "m" 1 {}
      mdSingleNormal (stPlain .reactions) (by decide) (by decide) (by decide) (by decide)
      (by decide)
  · exact select_toggle_semantics.2.2 cfgSingleNormal pSingleNormal "m" "e" {1}
      mdSingleNormal (stPlain .reactions) ⟨1, .normal⟩ (by decide) (by decide) (by decide)
      (by decide) (by decide) (by decide) (by decide)

/-- The button callback's tail (mode removal plus toggle) never produces the
cap-rejection outcome. -/
theorem btn_tail_ne_rejectedCap (x : Option (Finset Nat)) (v : Option Nat) (mem : Finset Nat) :
    (match x with
      | none => (mem, BOutcome.errored)
      | some mem1 =>
        match v with
        | none => (mem1, BOutcome.errored)
        | some rv =>
          if rv ∈ mem1 then (mem1.erase rv, BOutcome.removed)
          else (insert rv mem1, BOutcome.added)).2 ≠ BOutcome.rejectedCap := by
  cases x with
  | none => simp
  | some m1 =>
    cases v with
    | none => simp
    | some r => by_cases h : r ∈ m1 <;> simp [h]

/-- C2 amended: the two cap checks differ.  On the reaction path, once the
gates are reached and `max_roles = n ≠ 0`, holding at least `n` of the
message's bound roles rejects the activation unconditionally (no already-held
exemption) and leaves the roles unchanged.  On the button path, the check
rejects exactly when the count has reached `n` and the member does not hold
the role left in the loop variable after the counting loop — the last listed
existing bound role of the message, not the selected binding's role. -/
theorem cap_check_reaction_vs_button :
    (∀ (cfg : GuildConfig) (p : Platform) (mid e : String) (mem : Finset Nat)
        (md : MessageData) (st : Settings) (n : Nat) (ent : EmojiEntry),
      alookup mid cfg.messages = some md →
      alookup e md.entries = some ent →
      md.settings = some st →
      requiredOk p st mem = true →
      st.max_roles = some n → n ≠ 0 →
      n ≤ heldBoundCount p md.entries mem →
      onRawReactionAdd cfg p mid e mem = (mem, .rejectedCap)) ∧
    (∀ (cfg : GuildConfig) (p : Platform) (mid : String) (rid : Nat) (mode : Mode)
        (mem : Finset Nat) (md : MessageData) (st : Settings) (n : Nat),
      roleExists p rid = true →
      alookup mid cfg.messages = some md →
      md.settings = some st →
      requiredOk p st mem = true →
      st.max_roles = some n → n ≠ 0 →
      (roleButtonCallback cfg p mid rid mode mem = (mem, .rejectedCap) ↔
        (n ≤ heldBoundCount p md.entries mem ∧
          capVarNotHeld (capLoopRoleVar p md.entries (some rid)) mem = true))) := by
  constructor
  · intro cfg p mid e mem md st n ent h1 h2 h3 hreq hmax hn hcnt
    have hcap : capBlocksRR p st md.entries mem = true := by
      simp [capBlocksRR, hmax, hcnt, hn]
    simp only [onRawReactionAdd, h1, h2, h3]
    simp [hreq, hcap]
  · intro cfg p mid rid mode mem md st n hex h1 h2 hreq hmax hn
    have hbne : (n != 0) = true := by simpa using hn
    simp only [roleButtonCallback, hex, h1, h2, hreq, hmax, hbne]
    simp only [Bool.true_and, Bool.not_true, Bool.false_eq_true, if_false, if_true]
    split
    · rename_i hcond
      rw [Bool.and_eq_true, decide_eq_true_eq] at hcond
      simp [hcond.1, hcond.2]
    · rename_i hcond
      constructor
      · intro h
        have h2' := congrArg Prod.snd h
        exact absurd h2' (btn_tail_ne_rejectedCap _ _ _)
      · rintro ⟨ha, hb⟩
        exact absurd (by simp [ha, hb]) hcond

/-- Witness for C2's amended theorem: with `max_roles = 1` and role 1 held,
the reaction path rejects the select of `e1` outright, and the button path's
rejection condition evaluates through the clobbered loop variable (role 3,
the last listed binding, is unheld, so the click on role 1's button is
rejected even though role 1 is held). -/
theorem cap_check_reaction_vs_button_witness :
    onRawReactionAdd cfgCapThree pCapThree "m" "e2" {1} = ({1}, .rejectedCap) ∧
    (roleButtonCallback cfgCapThree pCapThree "m" 1 .normal {1} = ({1}, .rejectedCap) ↔
      (1 ≤ heldBoundCount pCapThree mdCapThree.entries {1} ∧
        capVarNotHeld (capLoopRoleVar pCapThree mdCapThree.entries (some 1)) {1} = true)) := by
  constructor
  · exact cap_check_reaction_vs_button.1 cfgCapThree pCapThree "m" "e2" {1} mdCapThree
      ⟨none, some 1, .reactions, []⟩ 1 (.record ⟨2, .normal⟩) (by decide) (by decide)
      (by decide) (by decide) (by decide) (by decide) (by decide)
  · exact cap_check_reaction_vs_button.2 cfgCapThree pCapThree "m" 1 .normal {1} mdCapThree
      ⟨none, some 1, .reactions, []⟩ 1 (by decide) (by decide) (by decide) (by decide)
      (by decide) (by decide)

/-! ## Reconciler lemmas -/

/-- The entry loop of `verify` keeps exactly the entries `verifyKeeps`
accepts, in order. -/
theorem verifyEntries_fst (p : Platform) :
    ∀ l : List (String × EmojiEntry),
      (verifyEntries p l).1 = l.filter (fun kv => verifyKeeps p kv.2) := by
  intro l
  induction l with
  | nil => rfl
  | cons hd tl ih =>
    rcases hd with ⟨k, e⟩
    rcases hv : verifyEntries p tl with ⟨rest', nn⟩
    rw [hv] at ih
    simp only at ih
    simp only [verifyEntries, hv]
    by_cases hk : verifyKeeps p e = true
    · simp [hk, List.filter_cons, ih]
    · simp [hk, List.filter_cons, ih]

/-- The message loop of `verify` maps each found message to itself with its
orphan record entries filtered out, and keeps every other message as is. -/
theorem verifyMessages_fst (p : Platform) :
    ∀ l : List (String × MessageData),
      (verifyMessages p l).1 = l.map (fun mm =>
        if mm.1 ∈ p.existingMessages then
          (mm.1, (⟨mm.2.settings, mm.2.entries.filter (fun kv => verifyKeeps p kv.2)⟩ : MessageData))
        else mm) := by
  intro l
  induction l with
  | nil => rfl
  | cons hd tl ih =>
    rcases hd with ⟨mid, md⟩
    rcases hv : verifyMessages p tl with ⟨rest', nn⟩
    rw [hv] at ih
    simp only at ih
    rcases he : verifyEntries p md.entries with ⟨ents, k⟩
    have hents : ents = md.entries.filter (fun kv => verifyKeeps p kv.2) := by
      have := verifyEntries_fst p md.entries
      rw [he] at this
      simpa using this
    simp only [verifyMessages, hv, he]
    by_cases hm : mid ∈ p.existingMessages
    · simp [hm, ih, hents]
    · simp [hm, ih]

/-- Every entry surviving cleanup's role pass satisfies `cleanupKeeps`. -/
theorem mem_cleanupEntries (p : Platform) :
    ∀ {l : List (String × EmojiEntry)} {x : String × EmojiEntry},
      x ∈ cleanupEntries p l → cleanupKeeps p x.2 = true := by
  intro l
  induction l with
  | nil => intro x h; simp [cleanupEntries] at h
  | cons hd tl ih =>
    rcases hd with ⟨k, e⟩
    intro x h
    simp only [cleanupEntries] at h
    by_cases hk : cleanupKeeps p e = true
    · rw [if_pos hk] at h
      rcases List.mem_cons.mp h with h1 | h2
      · rw [h1]; exact hk
      · exact ih h2
    · rw [if_neg hk] at h
      exact ih h

/-- A list whose entries all satisfy `cleanupKeeps` is untouched by cleanup's
role pass. -/
theorem cleanupEntries_of_keeps (p : Platform) :
    ∀ l : List (String × EmojiEntry),
      (∀ x ∈ l, cleanupKeeps p x.2 = true) → cleanupEntries p l = l := by
  intro l
  induction l with
  | nil => intro _; rfl
  | cons hd tl ih =>
    rcases hd with ⟨k, e⟩
    intro h
    simp only [cleanupEntries]
    rw [if_pos (h (k, e) (List.mem_cons_self _ _))]
    rw [ih (fun x hx => h x (List.mem_cons_of_mem _ hx))]

/-- Cleanup's role pass is idempotent. -/
theorem cleanupEntries_idem (p : Platform) (l : List (String × EmojiEntry)) :
    cleanupEntries p (cleanupEntries p l) = cleanupEntries p l :=
  cleanupEntries_of_keeps p _ (fun _ hx => mem_cleanupEntries p hx)

/-- A message surviving cleanup's first pass exists on the platform and its
entries are a fixed point of the role pass. -/
theorem mem_cleanupPass1 (p : Platform) :
    ∀ {l : List (String × MessageData)} {mm : String × MessageData},
      mm ∈ cleanupPass1 p l →
      mm.1 ∈ p.existingMessages ∧ cleanupEntries p mm.2.entries = mm.2.entries := by
  intro l
  induction l with
  | nil => intro mm h; simp [cleanupPass1] at h
  | cons hd tl ih =>
    rcases hd with ⟨mid, md⟩
    intro mm h
    simp only [cleanupPass1] at h
    by_cases hm : mid ∈ p.existingMessages
    · rw [if_pos hm] at h
      rcases List.mem_cons.mp h with h1 | h2
      · rw [h1]
        exact ⟨hm, cleanupEntries_idem p md.entries⟩
      · exact ih h2
    · rw [if_neg hm] at h
      exact ih h

/-- A list of messages that all exist and whose entries are fixed points of
the role pass is untouched by cleanup's first pass. -/
theorem cleanupPass1_fixed (p : Platform) :
    ∀ l : List (String × MessageData),
      (∀ mm ∈ l, mm.1 ∈ p.existingMessages ∧ cleanupEntries p mm.2.entries = mm.2.entries) →
      cleanupPass1 p l = l := by
  intro l
  induction l with
  | nil => intro _; rfl
  | cons hd tl ih =>
    rcases hd with ⟨mid, md⟩
    intro h
    have hhd := h (mid, md) (List.mem_cons_self _ _)
    simp only [cleanupPass1]
    rw [if_pos hhd.1]
    rw [ih (fun x hx => h x (List.mem_cons_of_mem _ hx))]
    have : (⟨md.settings, cleanupEntries p md.entries⟩ : MessageData) = md := by
      rw [hhd.2]
    rw [this]

/-- A message surviving cleanup's second pass was in the input and is not a
settings-only dict. -/
theorem mem_cleanupPass2 :
    ∀ {l : List (String × MessageData)} {mm : String × MessageData},
      mm ∈ cleanupPass2 l →
      mm ∈ l ∧ (mm.2.entries.isEmpty && mm.2.settings.isSome) = false := by
  intro l
  induction l with
  | nil => intro mm h; simp [cleanupPass2] at h
  | cons hd tl ih =>
    rcases hd with ⟨mid, md⟩
    intro mm h
    simp only [cleanupPass2] at h
    by_cases hk : (md.entries.isEmpty && md.settings.isSome) = true
    · rw [if_pos hk] at h
      exact ⟨List.mem_cons_of_mem _ (ih h).1, (ih h).2⟩
    · rw [if_neg hk] at h
      rcases List.mem_cons.mp h with h1 | h2
      · rw [h1]
        exact ⟨List.mem_cons_self _ _, Bool.not_eq_true _ ▸ by simpa using hk⟩
      · exact ⟨List.mem_cons_of_mem _ (ih h2).1, (ih h2).2⟩

/-- A list with no settings-only message is untouched by cleanup's second
pass. -/
theorem cleanupPass2_fixed :
    ∀ l : List (String × MessageData),
      (∀ mm ∈ l, (mm.2.entries.isEmpty && mm.2.settings.isSome) = false) →
      cleanupPass2 l = l := by
  intro l
  induction l with
  | nil => intro _; rfl
  | cons hd tl ih =>
    rcases hd with ⟨mid, md⟩
    intro h
    have hhd := h (mid, md) (List.mem_cons_self _ _)
    simp only [cleanupPass2]
    rw [if_neg (by simp [hhd])]
    rw [ih (fun x hx => h x (List.mem_cons_of_mem _ hx))]

/-- A lookup on a list none of whose keys is `k` fails. -/
theorem alookup_eq_none_of_keys {β : Type} (k : String) :
    ∀ l : List (String × β), (∀ x ∈ l, x.1 ≠ k) → alookup k l = none := by
  intro l
  induction l with
  | nil => intro _; rfl
  | cons hd tl ih =>
    rcases hd with ⟨k', v⟩
    intro h
    simp only [alookup]
    rw [if_neg (fun he => h (k', v) (List.mem_cons_self _ _) he.symm)]
    exact ih (fun x hx => h x (List.mem_cons_of_mem _ hx))

/-! ## Claim C6 (amended) -/

/-- C6 amended: `verify` is not read-only, but its only mutation is precise:
the resulting configuration is the old one with, for each message that still
exists on the platform, the record bindings whose role no longer exists
deleted; messages themselves (found or missing), their settings, and every
other entry are kept unchanged. -/
theorem verify_removes_orphan_bindings_only :
    ∀ (cfg : GuildConfig) (p : Platform),
      (verifyGuild cfg p).1 = ⟨cfg.messages.map (fun mm =>
        if mm.1 ∈ p.existingMessages then
          (mm.1, (⟨mm.2.settings, mm.2.entries.filter (fun kv => verifyKeeps p kv.2)⟩ : MessageData))
        else mm)⟩ := by
  intro cfg p
  rcases hv : verifyMessages p cfg.messages with ⟨msgs, n⟩
  have hm := verifyMessages_fst p cfg.messages
  rw [hv] at hm
  simp only at hm
  simp only [verifyGuild, hv, hm]

/-! ## Claim C7 (amended) -/

/-- C7 amended: `cleanup` removes the entire stored configuration of every
RoleMessage whose platform message no longer exists — nothing is retained for
`rebuild`/`clone`: after cleanup the guild dict has no entry under that
message id. -/
theorem cleanup_drops_missing_messages_entirely :
    ∀ (cfg : GuildConfig) (p : Platform) (mid : String),
      mid ∉ p.existingMessages →
      alookup mid (cleanupGuild cfg p).messages = none := by
  intro cfg p mid hmid
  by_cases he : cfg.messages.isEmpty
  · have h1 : cleanupGuild cfg p = cfg := by unfold cleanupGuild; rw [if_pos he]
    rw [h1, List.isEmpty_iff.mp he]
    rfl
  · have h1 : cleanupGuild cfg p = ⟨cleanupPass2 (cleanupPass1 p cfg.messages)⟩ := by
      unfold cleanupGuild; rw [if_neg he]
    rw [h1]
    apply alookup_eq_none_of_keys
    intro x hx hEq
    have hx2 := (mem_cleanupPass1 p (mem_cleanupPass2 hx).1).1
    rw [hEq] at hx2
    exact hmid hx2

/-- Witness for C7's amended theorem at a concrete input: message `m` is not
on the platform, and after cleanup its configuration is gone. -/
theorem cleanup_drops_missing_messages_entirely_witness :
    "m" ∉ pMissingMsg.existingMessages ∧
    alookup "m" (cleanupGuild cfgOrphanRole pMissingMsg).messages = none :=
  ⟨by decide, cleanup_drops_missing_messages_entirely cfgOrphanRole pMissingMsg "m" (by decide)⟩

/-! ## Claim C8 (amended) -/

/-- C8 amended: running `cleanup` twice in a row removes nothing the second
time (the first run's output is a fixed point, for every configuration and
fixed platform state), and every top-level trigger entry that survives
cleanup is a record binding whose role still exists in the guild (bare
entries are always deleted).  Menu-category bindings are outside this
guarantee: cleanup never inspects them (see the counterexample). -/
theorem cleanup_fixed_point_and_flat_bindings_valid :
    (∀ (cfg : GuildConfig) (p : Platform),
      cleanupGuild (cleanupGuild cfg p) p = cleanupGuild cfg p) ∧
    (∀ (cfg : GuildConfig) (p : Platform) (mm : String × MessageData)
        (kv : String × EmojiEntry),
      mm ∈ (cleanupGuild cfg p).messages → kv ∈ mm.2.entries →
      cleanupKeeps p kv.2 = true) := by
  constructor
  · intro cfg p
    by_cases he : cfg.messages.isEmpty
    · have h1 : cleanupGuild cfg p = cfg := by unfold cleanupGuild; rw [if_pos he]
      rw [h1, h1]
    · have h1 : cleanupGuild cfg p = ⟨cleanupPass2 (cleanupPass1 p cfg.messages)⟩ := by
        unfold cleanupGuild; rw [if_neg he]
      rw [h1]
      have hfix1 : cleanupPass1 p (cleanupPass2 (cleanupPass1 p cfg.messages)) =
          cleanupPass2 (cleanupPass1 p cfg.messages) :=
        cleanupPass1_fixed p _ (fun mm hm => mem_cleanupPass1 p (mem_cleanupPass2 hm).1)
      have hfix2 : cleanupPass2 (cleanupPass2 (cleanupPass1 p cfg.messages)) =
          cleanupPass2 (cleanupPass1 p cfg.messages) :=
        cleanupPass2_fixed _ (fun mm hm => (mem_cleanupPass2 hm).2)
      show (if (cleanupPass2 (cleanupPass1 p cfg.messages)).isEmpty then
          (⟨cleanupPass2 (cleanupPass1 p cfg.messages)⟩ : GuildConfig)
        else ⟨cleanupPass2 (cleanupPass1 p (cleanupPass2 (cleanupPass1 p cfg.messages)))⟩) =
        ⟨cleanupPass2 (cleanupPass1 p cfg.messages)⟩
      by_cases hL : (cleanupPass2 (cleanupPass1 p cfg.messages)).isEmpty
      · rw [if_pos hL]
      · rw [if_neg hL, hfix1, hfix2]
  · intro cfg p mm kv hmm hkv
    by_cases he : cfg.messages.isEmpty
    · have h1 : cleanupGuild cfg p = cfg := by unfold cleanupGuild; rw [if_pos he]
      rw [h1, List.isEmpty_iff.mp he] at hmm
      simp at hmm
    · have h1 : cleanupGuild cfg p = ⟨cleanupPass2 (cleanupPass1 p cfg.messages)⟩ := by
        unfold cleanupGuild; rw [if_neg he]
      rw [h1] at hmm
      have h3 := (mem_cleanupPass1 p (mem_cleanupPass2 hmm).1).2
      rw [← h3] at hkv
      exact mem_cleanupEntries p hkv

/-- Witness for C8's amended theorem at a concrete input: cleanup of
`cfgMixedMenu` is a fixed point, and its surviving flat entry passes
`cleanupKeeps`. -/
theorem cleanup_fixed_point_and_flat_bindings_valid_witness :
    cleanupGuild (cleanupGuild cfgMixedMenu pMixedMenu) pMixedMenu =
      cleanupGuild cfgMixedMenu pMixedMenu ∧
    cleanupKeeps pMixedMenu (EmojiEntry.record ⟨1, .normal⟩) = true := by
  constructor
  · exact cleanup_fixed_point_and_flat_bindings_valid.1 cfgMixedMenu pMixedMenu
  · exact cleanup_fixed_point_and_flat_bindings_valid.2 cfgMixedMenu pMixedMenu
      ("m", ⟨some ⟨none, none, .menu, [("c", ⟨"C", [⟨99, .normal⟩]⟩)]⟩,
        [("e", .record ⟨1, .normal⟩)]⟩)
      ("e", .record ⟨1, .normal⟩) (by decide) (by decide)

/-! ## Claim C9 -/

/-- Whether an emoji entry is a `{role_id, mode}` record (the shape every
message configured through the record-writing paths carries). -/
def entryIsRecord : EmojiEntry → Bool
  | .bare _ => false
  | .record _ => true

/-- On all-record entry lists the button loop succeeds and produces one
button per entry, with the custom id derived from the stored role id and the
message id. -/
theorem buttonComponents_records (gid mid : String) :
    ∀ l : List (String × EmojiEntry),
      (∀ kv ∈ l, entryIsRecord kv.2 = true) →
      buttonComponents gid mid l = some (l.filterMap fun kv =>
        match kv.2 with
        | .bare _ => none
        | .record b => some (.button (buttonCustomId b.role_id mid) gid mid b.role_id b.mode)) := by
  intro l
  induction l with
  | nil => intro _; rfl
  | cons hd tl ih =>
    rcases hd with ⟨k, e⟩
    intro h
    cases e with
    | bare r =>
      exact absurd (h (k, .bare r) (List.mem_cons_self _ _)) (by simp [entryIsRecord])
    | record b =>
      simp only [buttonComponents]
      rw [ih (fun kv hkv => h kv (List.mem_cons_of_mem _ hkv))]
      simp [List.filterMap_cons]

/-- C9: the registrar's output is a pure function of the persisted
configuration.  Whenever every buttons-style message carries record bindings,
`register_persistent_views` succeeds and registers exactly the components
described by `deriveComponentIdentities`: for each buttons-style message one
button per trigger with custom id `role_{role_id}_{message_id}` closing over
`(guild, message, role, mode)`, and for each menu-style message one select
menu per nonempty category with custom id `menu_{message_id}_{category_id}`
closing over `(guild, message, category, roles)` — all computed from the
stored configuration, with no input from the original creation events. -/
theorem registrar_pure_function_of_config :
    ∀ (gid : String) (cfg : GuildConfig),
      (∀ mm ∈ cfg.messages, styleOf mm.2 = Style.buttons →
        ∀ kv ∈ mm.2.entries, entryIsRecord kv.2 = true) →
      registerPersistentViews gid cfg = some (deriveComponentIdentities gid cfg) := by
  intro gid cfg
  obtain ⟨msgs⟩ := cfg
  show (∀ mm ∈ msgs, _ → _) → registerViewsWalk gid msgs = some (msgs.filterMap _)
  induction msgs with
  | nil => intro _; rfl
  | cons hd tl ih =>
    intro h
    rcases hd with ⟨mid, md⟩
    have htl := ih (fun mm hm => h mm (List.mem_cons_of_mem _ hm))
    cases hst : styleOf md with
    | reactions =>
      simp only [registerViewsWalk, hst]
      rw [htl]
      simp [List.filterMap_cons, hst]
    | buttons =>
      have hrec : ∀ kv ∈ md.entries, entryIsRecord kv.2 = true :=
        h (mid, md) (List.mem_cons_self _ _) hst
      simp only [registerViewsWalk, hst]
      rw [buttonComponents_records gid mid md.entries hrec, htl]
      simp only [List.filterMap_cons, hst]
      by_cases hcomp : (md.entries.filterMap fun kv =>
          match kv.2 with
          | EmojiEntry.bare _ => none
          | EmojiEntry.record b =>
            some (Component.button (buttonCustomId b.role_id mid) gid mid b.role_id b.mode)).isEmpty
      · simp [hcomp]
      · simp [hcomp]
    | menu =>
      simp only [registerViewsWalk, hst]
      rw [htl]
      simp only [List.filterMap_cons, hst]
      by_cases hcomp : (menuComponents gid mid
          (match md.settings with
           | none => []
           | some st => st.categories)).isEmpty
      · simp [hcomp]
      · simp [hcomp]

/-- Witness for C9 at a concrete configuration with one buttons-style, one
menu-style and one reactions-style message. -/
theorem registrar_pure_function_of_config_witness :
    registerPersistentViews "g" cfgRegistrar = some (deriveComponentIdentities "g" cfgRegistrar) :=
  registrar_pure_function_of_config "g" cfgRegistrar (by decide)

end AshaBot
